import Mathlib

/-!
Shallow embedding of `crypto_base` (src/repository.py, src/grpc_streamer.py)
and verification of the frozen claims about its specification.

The repository engine (repository.py) is modelled over an explicit value
universe `Val`; an entity type is a list of attribute names (`hasattr` is
membership), a row is an attribute-to-value map, and a composed SQLAlchemy
query is the record `Query` of its where-clauses, joins, projection and
order expressions.  The streamer (grpc_streamer.py) is modelled as an
explicit control-flow function over an environment fixing the outcome of
each primitive call, returning the escaping exception (if any) and the
trace of transport operations performed.
-/

/-- Plain scalar values: integers, strings, `None`. -/
inductive Scalar where
  | sint : Int → Scalar
  | sstr : String → Scalar
  | snull : Scalar
deriving DecidableEq, Repr

/-- Python values as they appear in filters, rows and update kwargs: a
scalar, the `In([...])` marker object (repository.py lines 15-23), or an
enum member carrying its `.value`. -/
inductive Val where
  | scalar : Scalar → Val
  | vIn : List Scalar → Val
  | vEnum : String → Scalar → Val
deriving DecidableEq, Repr

/-- The Python `None` value. -/
def Val.vnull : Val := Val.scalar Scalar.snull

/-- An entity type: the set of attribute names present on the model class
(`hasattr(model, field)` is membership in `fields`). -/
structure Model where
  fields : List String
deriving DecidableEq, Repr

/-- `hasattr(model, field)` of repository.py. -/
def Model.hasField (m : Model) (f : String) : Bool :=
  m.fields.contains f

/-- A database row: an attribute-to-value map. -/
abbrev Row : Type := List (String × Val)

/-- `getattr(row, field)`: the stored value of an attribute (absent
attributes read as `None`). -/
def Row.getField (r : Row) (f : String) : Val :=
  ((r.find? (fun kv => kv.1 = f)).map (fun kv => kv.2)).getD Val.vnull

/-- A WHERE clause as built by the repository: `column == value`,
`column.in_(items)`, or SQLAlchemy `false()`. -/
inductive Clause where
  | eqC : String → Val → Clause
  | inC : String → List Scalar → Clause
  | falseC : Clause
deriving DecidableEq, Repr

/-- Truth of a clause on a row.  `eqC` is value equality, `inC` is list
membership, `falseC` never holds. -/
def Clause.holds (r : Row) : Clause → Bool
  | Clause.eqC f v => Row.getField r f == v
  | Clause.inC f items => items.any (fun s => Row.getField r f == Val.scalar s)
  | Clause.falseC => false

namespace BaseRepository

/-- `BaseRepository._filter_clauses` (repository.py lines 126-140): for each
(field, value) pair, if the model has the field and the value is not None,
emit `false()` for an empty `In`, `column.in_(items)` for a non-empty `In`,
and `column == value` otherwise; other pairs are skipped. -/
def filter_clauses (model : Model) : List (String × Val) → List Clause
  | [] => []
  | (field, value) :: rest =>
    let tail := filter_clauses model rest
    if model.hasField field ∧ value ≠ Val.vnull then
      match value with
      | Val.vIn items =>
        if items = [] then Clause.falseC :: tail else Clause.inC field items :: tail
      | v => Clause.eqC field v :: tail
    else tail

/-- `BaseRepository._order_by` loop body (repository.py lines 149-158):
skip falsy (empty) field strings, strip a leading `-` as the descending
marker, keep only fields present on the model.  Each kept entry is
`(field_name, descending)`. -/
def order_exprs (model : Model) : List String → List (String × Bool)
  | [] => []
  | f :: rest =>
    if f = "" then order_exprs model rest
    else
      let descending := f.startsWith "-"
      let name := if descending then f.drop 1 else f
      if model.hasField name then (name, descending) :: order_exprs model rest
      else order_exprs model rest

end BaseRepository

namespace AsyncBaseRepository

/-- The filter loop of `AsyncBaseRepository.get_all` (repository.py lines
206-214): an enum member is first replaced by its `.value`; then, if the
model has the field and the (unwrapped) value is not None, the clause
`column == value` is emitted.  There is no `In` handling here: an `In`
object is compared for equality like any other value. -/
def filter_clauses (model : Model) : List (String × Val) → List Clause
  | [] => []
  | (field, value) :: rest =>
    let value := match value with
      | Val.vEnum _ u => Val.scalar u
      | v => v
    let tail := filter_clauses model rest
    if model.hasField field ∧ value ≠ Val.vnull then
      Clause.eqC field value :: tail
    else tail

/-- `AsyncBaseRepository._order_by` loop body (repository.py lines 266-272):
like the blocking variant but without the skip of falsy field strings
(harmless unless the empty string is itself a model field). -/
def order_exprs (model : Model) : List String → List (String × Bool)
  | [] => []
  | f :: rest =>
    let descending := f.startsWith "-"
    let name := if descending then f.drop 1 else f
    if model.hasField name then (name, descending) :: order_exprs model rest
    else order_exprs model rest

end AsyncBaseRepository

/-- The `order_by` argument of `get_all`: `None`, a single string, or a
list of strings (repository.py line 53). -/
inductive OrderBy where
  | noneOb : OrderBy
  | single : String → OrderBy
  | multi : List String → OrderBy
deriving DecidableEq, Repr

/-- The common prelude of both `_order_by` methods (repository.py lines
143-147 and 260-264): `if not order_by: return query` treats `None`, `""`
and `[]` as absent; a single string is wrapped in a list. -/
def OrderBy.normalize : OrderBy → List String
  | OrderBy.noneOb => []
  | OrderBy.single s => if s = "" then [] else [s]
  | OrderBy.multi l => if l = [] then [] else l

/-- A composed (unexecuted) SQLAlchemy `Select` as the repository builds
it: extra selected fields, a `with_only_columns` projection, joins (joined
model plus an opaque ON-clause token), WHERE clauses in application order,
and ORDER BY expressions in application order. -/
structure Query where
  selectFields : List String
  onlyColumns : Option (List String)
  joins : List (Model × Nat)
  whereClauses : List Clause
  orderExprs : List (String × Bool)
deriving DecidableEq, Repr

namespace BaseRepository

/-- `BaseRepository._filter_query` (repository.py lines 118-124): append
the computed clauses (if any) to the query's WHERE list. -/
def filter_query (model : Model) (q : Query) (filters : List (String × Val)) : Query :=
  if filters ≠ [] then
    let clauses := filter_clauses model filters
    if clauses ≠ [] then { q with whereClauses := q.whereClauses ++ clauses } else q
  else q

/-- `BaseRepository.get_all` with `exec_query=False` (repository.py lines
50-82): build the base select with optional extra select fields, apply
`with_only_columns`, joins in caller order, base filters, per-join-model
filters (dropping None values first, repository.py line 78), then ordering. -/
def get_all (model : Model) (order_by : OrderBy) (joins : List (Model × Nat))
    (join_filters : List (Model × List (String × Val)))
    (select_fields : List String) (columns : Option (List String))
    (filters : List (String × Val)) : Query :=
  let q : Query := { selectFields := select_fields, onlyColumns := none,
                     joins := [], whereClauses := [], orderExprs := [] }
  let q := match columns with
    | some cs => { q with onlyColumns := some cs }
    | none => q
  let q := { q with joins := joins }
  let q := filter_query model q filters
  let q := join_filters.foldl
    (fun q mjf =>
      filter_query mjf.1 q (mjf.2.filter (fun kv => kv.2 != Val.vnull))) q
  let exprs := order_exprs model order_by.normalize
  if exprs ≠ [] then { q with orderExprs := q.orderExprs ++ exprs } else q

end BaseRepository

namespace AsyncBaseRepository

/-- `AsyncBaseRepository.get_all` with `exec_query=False` (repository.py
lines 198-219): a plain select over the model, the async filter loop, then
ordering (one `order_by` call per expression, which appends). -/
def get_all (model : Model) (order_by : OrderBy)
    (filters : List (String × Val)) : Query :=
  let q : Query := { selectFields := [], onlyColumns := none,
                     joins := [], whereClauses := [], orderExprs := [] }
  let q := if filters ≠ [] then
      let clauses := filter_clauses model filters
      if clauses ≠ [] then { q with whereClauses := q.whereClauses ++ clauses } else q
    else q
  { q with orderExprs := q.orderExprs ++ order_exprs model order_by.normalize }

end AsyncBaseRepository

/-- Execution of a composed query without joins or projection against a
table: the rows on which every WHERE clause holds, in table order. -/
def runQueryNoJoin (table : List Row) (q : Query) : List Row :=
  table.filter (fun r => q.whereClauses.all (Clause.holds r))

/-- The result dict of `get_paginated` (repository.py lines 99-105 and
240-246). -/
structure PaginationResult (α : Type) where
  items : List α
  next_page : Option Nat
  prev_page : Option Nat
  total_pages : Nat
  total_count : Nat
deriving DecidableEq, Repr

/-- `max(x or 1, 1)` on a Python int (repository.py lines 91-92, 230-231):
0 is falsy and becomes 1, and the result is at least 1. -/
def clamp1 (x : Int) : Nat := (max x 1).toNat

namespace BaseRepository

/-- `BaseRepository.get_paginated` (repository.py lines 84-105), modelled
over the materialized ordered rows of the page query (`pageRows`) and the
optional separate count query (`countRows`, defaulting to the page query,
line 95).  `math.ceil(total_count / limit)` over exact division equals
`(total_count + limit - 1) / limit` in natural division; `offset n` /
`limit k` on the executed query are `List.drop n` / `List.take k`. -/
def get_paginated (pageRows : List α) (countRows : Option (List α))
    (limit page : Int) : PaginationResult α :=
  let limit := clamp1 limit
  let page := clamp1 page
  let countRows := countRows.getD pageRows
  let total_count := countRows.length
  let total_pages := (total_count + limit - 1) / limit
  { items := (pageRows.drop ((page - 1) * limit)).take limit,
    next_page := if total_pages ≠ 0 ∧ page < total_pages then some (page + 1) else none,
    prev_page := if 1 < page then some (page - 1) else none,
    total_pages := total_pages,
    total_count := total_count }

end BaseRepository

namespace AsyncBaseRepository

/-- `AsyncBaseRepository.get_paginated` (repository.py lines 224-246):
identical arithmetic, no separate count query parameter (the count is
always taken over `query.subquery()`, line 233). -/
def get_paginated (pageRows : List α) (limit page : Int) : PaginationResult α :=
  let limit := clamp1 limit
  let page := clamp1 page
  let total_count := pageRows.length
  let total_pages := (total_count + limit - 1) / limit
  { items := (pageRows.drop ((page - 1) * limit)).take limit,
    next_page := if total_pages ≠ 0 ∧ page < total_pages then some (page + 1) else none,
    prev_page := if 1 < page then some (page - 1) else none,
    total_pages := total_pages,
    total_count := total_count }

end AsyncBaseRepository

/-- An in-memory entity instance: its attribute map. -/
abbrev Inst : Type := List (String × Val)

/-- `hasattr(instance, k)`. -/
def Inst.hasAttr (i : Inst) (k : String) : Bool :=
  i.any (fun kv => kv.1 == k)

/-- `setattr(instance, k, v)`: overwrite the attribute, creating it when
absent. -/
def Inst.setAttr (i : Inst) (k : String) (v : Val) : Inst :=
  if i.hasAttr k then
    i.map (fun kv => if kv.1 = k then (k, v) else kv)
  else i ++ [(k, v)]

/-- `getattr(instance, k)` (reads `None` when absent). -/
def Inst.getAttr (i : Inst) (k : String) : Val :=
  ((i.find? (fun kv => kv.1 = k)).map (fun kv => kv.2)).getD Val.vnull

namespace BaseRepository

/-- The in-memory effect of `BaseRepository.update` (repository.py lines
35-42): stamp `updated_at` with the current UTC clock reading (`now`,
modelled as an integer timestamp) when the instance has that attribute,
then apply the caller's keyword pairs with `setattr` in order.  The `_add`
success path then commits and refreshes the instance from the store, which
holds exactly the committed attribute values. -/
def update (now : Int) (inst : Inst) (update_kwargs : List (String × Val)) : Inst :=
  let inst :=
    if inst.hasAttr "updated_at" then
      inst.setAttr "updated_at" (Val.scalar (Scalar.sint now))
    else inst
  update_kwargs.foldl (fun acc kv => acc.setAttr kv.1 kv.2) inst

end BaseRepository

namespace AsyncBaseRepository

/-- The in-memory effect of `AsyncBaseRepository.update` (repository.py
lines 184-191): the same statement sequence as the blocking variant. -/
def update (now : Int) (inst : Inst) (update_kwargs : List (String × Val)) : Inst :=
  let inst :=
    if inst.hasAttr "updated_at" then
      inst.setAttr "updated_at" (Val.scalar (Scalar.sint now))
    else inst
  update_kwargs.foldl (fun acc kv => acc.setAttr kv.1 kv.2) inst

end AsyncBaseRepository

/-- A session primitive as it appears in the write paths of repository.py. -/
inductive SOp where
  | addOp | addAllOp | commitOp | refreshOp | rollbackOp
deriving DecidableEq, Repr

/-- Outcomes the store chooses for the three steps of `_add`: `none` means
the step succeeds, `some e` means it raises exception `e` (exceptions are
identified by a numeric id, so "re-raised unchanged" is id equality).
`session.rollback()` itself is assumed to succeed. -/
structure SessionBehavior where
  addExc : Option Nat
  commitExc : Option Nat
  refreshExc : Option Nat
deriving DecidableEq, Repr

namespace BaseRepository

/-- `BaseRepository._add` (repository.py lines 107-116) and the
statement-identical `AsyncBaseRepository._add` (lines 248-257): add,
commit, refresh inside a try; any failure triggers `session.rollback()`
and a bare `raise`.  Returns the outcome toward the caller and the trace
of session operations that completed. -/
def addRun (b : SessionBehavior) : Except Nat Unit × List SOp :=
  match b.addExc with
  | some e => (Except.error e, [SOp.rollbackOp])
  | none =>
    match b.commitExc with
    | some e => (Except.error e, [SOp.addOp, SOp.rollbackOp])
    | none =>
      match b.refreshExc with
      | some e => (Except.error e, [SOp.addOp, SOp.commitOp, SOp.rollbackOp])
      | none => (Except.ok (), [SOp.addOp, SOp.commitOp, SOp.refreshOp])

end BaseRepository

/-- Outcomes the store chooses for the steps of `bulk_create`: `add_all`,
`commit`, then one refresh per instance (in order). -/
structure BulkBehavior where
  addAllExc : Option Nat
  commitExc : Option Nat
  refreshExcs : List (Option Nat)
deriving DecidableEq, Repr

namespace AsyncBaseRepository

/-- The refresh loop of `bulk_create` (repository.py lines 176-177): one
`session.refresh` per instance, stopping at the first raising one. -/
def refreshAll : List (Option Nat) → Except Nat Unit × List SOp
  | [] => (Except.ok (), [])
  | none :: rest =>
    let r := refreshAll rest
    (r.1, SOp.refreshOp :: r.2)
  | some e :: _ => (Except.error e, [])

/-- `AsyncBaseRepository.bulk_create` (repository.py lines 172-182):
`add_all` the batch, one `commit`, refresh each instance; any failure
triggers `session.rollback()` and a bare `raise`. -/
def bulk_create (b : BulkBehavior) : Except Nat Unit × List SOp :=
  match b.addAllExc with
  | some e => (Except.error e, [SOp.rollbackOp])
  | none =>
    match b.commitExc with
    | some e => (Except.error e, [SOp.addAllOp, SOp.rollbackOp])
    | none =>
      let r := refreshAll b.refreshExcs
      match r.1 with
      | Except.error e =>
        (Except.error e, SOp.addAllOp :: SOp.commitOp :: r.2 ++ [SOp.rollbackOp])
      | Except.ok _ => (Except.ok (), SOp.addAllOp :: SOp.commitOp :: r.2)

end AsyncBaseRepository

/-- Kinds of exceptions a transport primitive can raise.  `send_data`'s
except clause (grpc_streamer.py line 51) catches exactly
`grpc.aio.AioRpcError` and `asyncio.InvalidStateError`; `otherError`
stands for any other `Exception` subclass. -/
inductive ExcKind where
  | aioRpcError : ExcKind
  | invalidStateError : ExcKind
  | otherError : ExcKind
deriving DecidableEq, Repr, Fintype

/-- Transport-level operations performed by one `send_data` call. -/
inductive StreamOp where
  | connectCall : StreamOp
  | doneWritingCall : StreamOp
  | sleepBackoff : StreamOp
  | writeAttempt : StreamOp
deriving DecidableEq, Repr

/-- The behaviour of the underlying stream, channel factory and stub during
one `send_data` call: whether a live stream exists on entry, and for each
primitive that may be invoked, whether it succeeds (`none`) or raises
(`some kind`).  `doneWritingExc` has no observable effect because
`_handle_stream_error` swallows it (grpc_streamer.py lines 62-66), but is
kept to state that. -/
structure StreamEnv where
  streamPresent : Bool
  streamDone : Bool
  connect1Exc : Option ExcKind
  write1Exc : Option ExcKind
  doneWritingExc : Option ExcKind
  connect2Exc : Option ExcKind
  write2Exc : Option ExcKind
deriving DecidableEq, Repr

instance : Fintype StreamEnv :=
  Fintype.ofSurjective
    (fun t : Bool × Bool × Option ExcKind × Option ExcKind × Option ExcKind
        × Option ExcKind × Option ExcKind =>
      StreamEnv.mk t.1 t.2.1 t.2.2.1 t.2.2.2.1 t.2.2.2.2.1 t.2.2.2.2.2.1 t.2.2.2.2.2.2)
    (fun s => ⟨⟨s.streamPresent, s.streamDone, s.connect1Exc, s.write1Exc,
      s.doneWritingExc, s.connect2Exc, s.write2Exc⟩, rfl⟩)

instance : DecidableEq (Except ExcKind Unit) := fun a b =>
  match a, b with
  | Except.ok u, Except.ok v => isTrue (by cases u; cases v; rfl)
  | Except.error e, Except.error f =>
    if h : e = f then isTrue (by rw [h])
    else isFalse (fun hc => h (Except.error.injEq .. ▸ hc))
  | Except.ok _, Except.error _ => isFalse (fun hc => Except.noConfusion hc)
  | Except.error _, Except.ok _ => isFalse (fun hc => Except.noConfusion hc)

namespace BaseStreamer

/-- `BaseStreamer._ensure_stream_alive` (grpc_streamer.py lines 40-44):
when the stream is absent or reports itself done, call `connect()`, whose
failure propagates to the caller of `_ensure_stream_alive`. -/
def ensure_stream_alive (env : StreamEnv) : Except ExcKind Unit × List StreamOp :=
  if !env.streamPresent || env.streamDone then
    match env.connect1Exc with
    | some e => (Except.error e, [])
    | none => (Except.ok (), [StreamOp.connectCall])
  else (Except.ok (), [])

/-- Whether `self.stream` is non-None when `_handle_stream_error` runs:
`connect()` assigns `self.stream` only after the whole connect body
succeeds (grpc_streamer.py line 33), so a raising `connect` leaves the
previous value in place. -/
def streamPresentAtHandler (env : StreamEnv) : Bool :=
  if (!env.streamPresent || env.streamDone) && env.connect1Exc = none then true
  else env.streamPresent

/-- `BaseStreamer._handle_stream_error` (grpc_streamer.py lines 60-69):
best-effort `done_writing` on the old stream (any failure swallowed),
sleep `RECONNECT_DELAY`, then `connect()` — whose failure propagates to
the caller of `_handle_stream_error`. -/
def handle_stream_error (env : StreamEnv) : Except ExcKind Unit × List StreamOp :=
  let t := if streamPresentAtHandler env then [StreamOp.doneWritingCall] else []
  let t := t ++ [StreamOp.sleepBackoff]
  match env.connect2Exc with
  | some e => (Except.error e, t)
  | none => (Except.ok (), t ++ [StreamOp.connectCall])

/-- `BaseStreamer.send_data` (grpc_streamer.py lines 46-58), under the
write lock (the caller holds `self._lock` alone, so the body runs without
interleaving): try `_ensure_stream_alive` then `stream.write(data)`;
a raised `AioRpcError` or `InvalidStateError` is caught and triggers
`_handle_stream_error` followed by exactly one retried write whose own
failure (of any kind) is logged and swallowed.  Exceptions of other kinds
from the first phase, and any exception raised by `_handle_stream_error`
itself, propagate to the caller.  Returns the outcome toward the caller
and the trace of transport operations. -/
def send_data (env : StreamEnv) : Except ExcKind Unit × List StreamOp :=
  let ensured := ensure_stream_alive env
  let firstPhase : Except ExcKind Unit × List StreamOp :=
    match ensured.1 with
    | Except.error e => (Except.error e, ensured.2)
    | Except.ok _ =>
      match env.write1Exc with
      | none => (Except.ok (), ensured.2 ++ [StreamOp.writeAttempt])
      | some e => (Except.error e, ensured.2 ++ [StreamOp.writeAttempt])
  match firstPhase.1 with
  | Except.ok _ => (Except.ok (), firstPhase.2)
  | Except.error e =>
    if e = ExcKind.aioRpcError ∨ e = ExcKind.invalidStateError then
      let handled := handle_stream_error env
      match handled.1 with
      | Except.error e2 => (Except.error e2, firstPhase.2 ++ handled.2)
      | Except.ok _ =>
        (Except.ok (), firstPhase.2 ++ handled.2 ++ [StreamOp.writeAttempt])
    else (Except.error e, firstPhase.2)

end BaseStreamer

/-- The connection-relevant state of a `BaseStreamer` instance
(grpc_streamer.py lines 16-23): current channel/stub/stream (identified by
construction ids), a fresh-id supply, the number of channels constructed
so far, and the ids of closed channels. -/
structure StreamerState where
  channel : Option Nat
  stub : Option Nat
  stream : Option Nat
  nextFresh : Nat
  constructedChannels : Nat
  closedChannels : List Nat
deriving DecidableEq, Repr

/-- The state after `__init__`: no channel, stub or stream. -/
def StreamerState.init : StreamerState :=
  { channel := none, stub := none, stream := none,
    nextFresh := 0, constructedChannels := 0, closedChannels := [] }

namespace BaseStreamer

/-- The body of `BaseStreamer.connect` (grpc_streamer.py lines 25-34),
which runs entirely under the `self._connecting` lock: close any prior
channel, then always construct a fresh channel, stub and stream.  Because
the lock is held across the whole body, two concurrent `connect()` calls
execute this body twice in sequence (in some order); concurrent execution
is modelled as that sequential composition. -/
def connect (s : StreamerState) : StreamerState :=
  let s := match s.channel with
    | some c => { s with closedChannels := s.closedChannels ++ [c] }
    | none => s
  { s with channel := some s.nextFresh,
           stub := some s.nextFresh,
           stream := some s.nextFresh,
           nextFresh := s.nextFresh + 1,
           constructedChannels := s.constructedChannels + 1 }

end BaseStreamer

/-- Whether a value is a plain scalar: neither an `In(...)` wrapper nor an
enum member. -/
def Val.isPlainScalar : Val → Bool
  | Val.scalar _ => true
  | Val.vIn _ => false
  | Val.vEnum _ _ => false

/-- The first exception the store raises during `_add`, if any. -/
def SessionBehavior.firstExc (b : SessionBehavior) : Option Nat :=
  match b.addExc with
  | some e => some e
  | none =>
    match b.commitExc with
    | some e => some e
    | none => b.refreshExc

/-- The first exception raised in the refresh loop of `bulk_create`. -/
def firstRefreshExc : List (Option Nat) → Option Nat
  | [] => none
  | none :: rest => firstRefreshExc rest
  | some e :: _ => some e

/-- The first exception the store raises during `bulk_create`, if any. -/
def BulkBehavior.firstExc (b : BulkBehavior) : Option Nat :=
  match b.addAllExc with
  | some e => some e
  | none =>
    match b.commitExc with
    | some e => some e
    | none => firstRefreshExc b.refreshExcs

/-- The exception raised inside `send_data`'s try block (from
`_ensure_stream_alive` or the first `stream.write`), if any. -/
def BaseStreamer.firstPhaseExc (env : StreamEnv) : Option ExcKind :=
  match (BaseStreamer.ensure_stream_alive env).1 with
  | Except.error e => some e
  | Except.ok _ => env.write1Exc

/-- Both clamped pagination parameters are at least 1. -/
lemma one_le_clamp1 (x : Int) : 1 ≤ clamp1 x := by
  have h : (1 : Int) ≤ max x 1 := le_max_right x 1
  exact Int.toNat_le_toNat h

/-- The page ceiling covers the whole count: `total_count ≤ limit * total_pages`. -/
lemma count_le_mul_pages (tc l : Nat) (hl : 0 < l) :
    tc ≤ l * ((tc + l - 1) / l) := by
  have h := le_smul_ceilDiv hl (b := tc)
  rw [smul_eq_mul, Nat.ceilDiv_eq_add_pred_div] at h
  exact h

/-- The blocking and non-blocking `get_paginated` agree whenever no
separate count query is supplied (repository.py lines 84-105 vs 224-246). -/
lemma get_paginated_sync_async_eq (α : Type) (rows : List α) (limit page : Int) :
    AsyncBaseRepository.get_paginated rows limit page
      = BaseRepository.get_paginated rows none limit page := rfl

/-- C7: `get_paginated` computes `total_pages` as the integer ceiling of
`total_count / limit` and offsets the page query by `(page-1)*limit` with
`limit` rows per page; with `total_count = 25` and `limit = 10`, page 1
gives `total_pages = 3`, `next_page = 2`, `prev_page` absent; page 3 gives
`next_page` absent, `prev_page = 2`; page 4 gives empty items,
`prev_page = 3`, `next_page` absent. -/
theorem C7_pagination_arithmetic :
    (∀ (α : Type) (rows : List α) (limit page : Int),
      (BaseRepository.get_paginated rows none limit page).total_pages
          = rows.length ⌈/⌉ clamp1 limit
      ∧ (BaseRepository.get_paginated rows none limit page).items
          = (rows.drop ((clamp1 page - 1) * clamp1 limit)).take (clamp1 limit))
    ∧ ((BaseRepository.get_paginated (List.range 25) none 10 1).total_pages = 3
        ∧ (BaseRepository.get_paginated (List.range 25) none 10 1).next_page = some 2
        ∧ (BaseRepository.get_paginated (List.range 25) none 10 1).prev_page = none)
    ∧ ((BaseRepository.get_paginated (List.range 25) none 10 3).next_page = none
        ∧ (BaseRepository.get_paginated (List.range 25) none 10 3).prev_page = some 2)
    ∧ ((BaseRepository.get_paginated (List.range 25) none 10 4).items = []
        ∧ (BaseRepository.get_paginated (List.range 25) none 10 4).prev_page = some 3
        ∧ (BaseRepository.get_paginated (List.range 25) none 10 4).next_page = none) := by
  refine ⟨fun α rows limit page => ⟨rfl, rfl⟩, by decide, by decide, by decide⟩

/-- C5 counterexample: with an empty result set (`total_count = 0`) but
`page = 2`, both variants still return `prev_page = 1` — `prev_page` is
not absent for every page supplied by the caller, contradicting the claim. -/
theorem C5_counterexample :
    (BaseRepository.get_paginated ([] : List Nat) none 10 2).total_count = 0
    ∧ (BaseRepository.get_paginated ([] : List Nat) none 10 2).prev_page = some 1
    ∧ (AsyncBaseRepository.get_paginated ([] : List Nat) 10 2).prev_page = some 1 := by
  decide

/-- C5 amended: with `total_count = 0`, both variants give
`total_pages = 0`, `next_page` absent and `items = []` for every page and
limit; but `prev_page` follows `page` alone and equals `page - 1` whenever
the clamped page exceeds 1 (it is absent only for `page ≤ 1`). -/
theorem C5_amended :
    ∀ (α : Type) (limit page : Int),
      (BaseRepository.get_paginated ([] : List α) none limit page).total_count = 0
      ∧ (BaseRepository.get_paginated ([] : List α) none limit page).total_pages = 0
      ∧ (BaseRepository.get_paginated ([] : List α) none limit page).next_page = none
      ∧ (BaseRepository.get_paginated ([] : List α) none limit page).items = []
      ∧ (BaseRepository.get_paginated ([] : List α) none limit page).prev_page
          = (if 1 < clamp1 page then some (clamp1 page - 1) else none)
      ∧ AsyncBaseRepository.get_paginated ([] : List α) limit page
          = BaseRepository.get_paginated ([] : List α) none limit page := by
  intro α limit page
  have hl := one_le_clamp1 limit
  have htp : (BaseRepository.get_paginated ([] : List α) none limit page).total_pages = 0 := by
    show (0 + clamp1 limit - 1) / clamp1 limit = 0
    exact Nat.div_eq_of_lt (by omega)
  refine ⟨rfl, htp, ?_, by simp [BaseRepository.get_paginated], rfl, rfl⟩
  show (if ((0 + clamp1 limit - 1) / clamp1 limit ≠ 0 ∧ _) then _ else none) = none
  rw [if_neg]
  intro h
  exact h.1 htp

/-- Beyond the last page the page offset passes the whole result set, so
the executed page is empty. -/
lemma items_nil_beyond (α : Type) (rows : List α) (limit page : Int)
    (h : (BaseRepository.get_paginated rows none limit page).total_pages < clamp1 page) :
    (BaseRepository.get_paginated rows none limit page).items = [] := by
  have hl := one_le_clamp1 limit
  have hp := one_le_clamp1 page
  have hcov := count_le_mul_pages rows.length (clamp1 limit) (by omega)
  have htp : (BaseRepository.get_paginated rows none limit page).total_pages
      = (rows.length + clamp1 limit - 1) / clamp1 limit := rfl
  rw [htp] at h
  show (rows.drop ((clamp1 page - 1) * clamp1 limit)).take (clamp1 limit) = []
  have hstep : (rows.length + clamp1 limit - 1) / clamp1 limit ≤ clamp1 page - 1 := by omega
  have hlen : rows.length ≤ (clamp1 page - 1) * clamp1 limit := by
    calc rows.length
        ≤ clamp1 limit * ((rows.length + clamp1 limit - 1) / clamp1 limit) := hcov
      _ ≤ clamp1 limit * (clamp1 page - 1) := Nat.mul_le_mul_left _ hstep
      _ = (clamp1 page - 1) * clamp1 limit := Nat.mul_comm _ _
  rw [List.drop_eq_nil_of_le hlen]
  simp

/-- C6 counterexample: with zero rows and `page = 1` the (clamped) page
exceeds `total_pages = 0` and `items` is empty, yet the result does not
echo `prev_page = page - 1 = 0` — `prev_page` is absent. -/
theorem C6_counterexample :
    (BaseRepository.get_paginated ([] : List Nat) none 10 1).total_pages < clamp1 1
    ∧ (BaseRepository.get_paginated ([] : List Nat) none 10 1).items = []
    ∧ (BaseRepository.get_paginated ([] : List Nat) none 10 1).prev_page ≠ some (clamp1 1 - 1) := by
  decide

/-- C6 amended: after clamping, `next_page` is present (with value
`page + 1`) exactly when `page < total_pages`, and `prev_page` is present
(with value `page - 1`) exactly when `page > 1`, both independent of row
contents; when `page` exceeds `total_pages` the items are empty, and the
result echoes `prev_page = page - 1` provided additionally `page > 1`
(with `page = 1` and `total_pages = 0`, `prev_page` is absent).  The
non-blocking variant returns the identical result. -/
theorem C6_amended (α : Type) (rows : List α) (limit page : Int) :
    ((BaseRepository.get_paginated rows none limit page).next_page ≠ none
        ↔ clamp1 page < (BaseRepository.get_paginated rows none limit page).total_pages)
    ∧ (BaseRepository.get_paginated rows none limit page).next_page
        = (if clamp1 page < (BaseRepository.get_paginated rows none limit page).total_pages
           then some (clamp1 page + 1) else none)
    ∧ ((BaseRepository.get_paginated rows none limit page).prev_page ≠ none
        ↔ 1 < clamp1 page)
    ∧ (BaseRepository.get_paginated rows none limit page).prev_page
        = (if 1 < clamp1 page then some (clamp1 page - 1) else none)
    ∧ ((BaseRepository.get_paginated rows none limit page).total_pages < clamp1 page →
        (BaseRepository.get_paginated rows none limit page).items = [])
    ∧ ((BaseRepository.get_paginated rows none limit page).total_pages < clamp1 page →
        1 < clamp1 page →
        (BaseRepository.get_paginated rows none limit page).prev_page
          = some (clamp1 page - 1))
    ∧ AsyncBaseRepository.get_paginated rows limit page
        = BaseRepository.get_paginated rows none limit page := by
  have hp := one_le_clamp1 page
  have hnext : (BaseRepository.get_paginated rows none limit page).next_page
      = (if (rows.length + clamp1 limit - 1) / clamp1 limit ≠ 0
            ∧ clamp1 page < (rows.length + clamp1 limit - 1) / clamp1 limit
         then some (clamp1 page + 1) else none) := rfl
  have htp : (BaseRepository.get_paginated rows none limit page).total_pages
      = (rows.length + clamp1 limit - 1) / clamp1 limit := rfl
  have hprev : (BaseRepository.get_paginated rows none limit page).prev_page
      = (if 1 < clamp1 page then some (clamp1 page - 1) else none) := rfl
  refine ⟨?_, ?_, ?_, hprev, items_nil_beyond α rows limit page, ?_, rfl⟩
  · rw [hnext, htp]
    constructor
    · intro h
      by_contra hlt
      rw [if_neg] at h
      · exact h rfl
      · intro hc
        exact hlt hc.2
    · intro h
      rw [if_pos ⟨by omega, h⟩]
      simp
  · rw [hnext, htp]
    by_cases h : clamp1 page < (rows.length + clamp1 limit - 1) / clamp1 limit
    · rw [if_pos ⟨by omega, h⟩, if_pos h]
    · rw [if_neg (fun hc => h hc.2), if_neg h]
  · rw [hprev]
    constructor
    · intro h
      by_contra hlt
      rw [if_neg hlt] at h
      exact h rfl
    · intro h
      rw [if_pos h]
      simp
  · intro _ h1
    rw [hprev, if_pos h1]

/-- C6 amended witness: 25 rows, limit 10, page 5 — the clamped page 5
exceeds `total_pages = 3`, items are empty and `prev_page = 4`. -/
theorem C6_amended_witness :
    (BaseRepository.get_paginated (List.range 25) none 10 5).items = []
    ∧ (BaseRepository.get_paginated (List.range 25) none 10 5).prev_page = some 4 := by
  have h := C6_amended Nat (List.range 25) 10 5
  exact ⟨h.2.2.2.2.1 (by decide), h.2.2.2.2.2.1 (by decide) (by decide)⟩

/-- An `In([])` entry on a model field always contributes the `false()`
clause to the blocking filter compilation. -/
lemma falseC_mem_filter_clauses (model : Model) (filters : List (String × Val))
    (field : String) (hmem : (field, Val.vIn []) ∈ filters)
    (hfield : model.hasField field = true) :
    Clause.falseC ∈ BaseRepository.filter_clauses model filters := by
  induction filters with
  | nil => cases hmem
  | cons kv rest ih =>
    obtain ⟨f, v⟩ := kv
    rcases List.mem_cons.1 hmem with h | h
    · obtain ⟨hf, hv⟩ := Prod.mk.injEq .. ▸ h
      subst hf
      subst hv
      simp [BaseRepository.filter_clauses, hfield, Val.vnull]
    · have htail := ih h
      cases v with
      | scalar s =>
        by_cases hc : Model.hasField model f = true ∧ Val.scalar s ≠ Val.vnull
        · simp only [BaseRepository.filter_clauses, if_pos hc]
          exact List.mem_cons_of_mem _ htail
        · simp only [BaseRepository.filter_clauses, if_neg hc]
          exact htail
      | vIn items =>
        by_cases hc : Model.hasField model f = true ∧ Val.vIn items ≠ Val.vnull
        · by_cases hi : items = []
          · simp only [BaseRepository.filter_clauses, if_pos hc, if_pos hi]
            exact List.mem_cons_of_mem _ htail
          · simp only [BaseRepository.filter_clauses, if_pos hc, if_neg hi]
            exact List.mem_cons_of_mem _ htail
        · simp only [BaseRepository.filter_clauses, if_neg hc]
          exact htail
      | vEnum n u =>
        by_cases hc : Model.hasField model f = true ∧ Val.vEnum n u ≠ Val.vnull
        · simp only [BaseRepository.filter_clauses, if_pos hc]
          exact List.mem_cons_of_mem _ htail
        · simp only [BaseRepository.filter_clauses, if_neg hc]
          exact htail

/-- A clause list containing `false()` rejects every row. -/
lemma all_holds_eq_false_of_falseC (r : Row) (cs : List Clause)
    (h : Clause.falseC ∈ cs) :
    cs.all (Clause.holds r) = false := by
  cases hb : cs.all (Clause.holds r) with
  | false => rfl
  | true =>
    have := List.all_eq_true.1 hb Clause.falseC h
    simp [Clause.holds] at this

/-- Without joins, join filters, projection or columns, `get_all` composes
exactly the base filter clauses as its WHERE list. -/
lemma get_all_noJoin_whereClauses (model : Model) (order_by : OrderBy)
    (filters : List (String × Val)) :
    (BaseRepository.get_all model order_by [] [] [] none filters).whereClauses
      = BaseRepository.filter_clauses model filters := by
  unfold BaseRepository.get_all BaseRepository.filter_query
  by_cases hf : filters = []
  · subst hf
    simp [BaseRepository.filter_clauses]
    split <;> rfl
  · simp [hf]
    by_cases hc : BaseRepository.filter_clauses model filters = []
    · rw [hc]
      simp
      split <;> rfl
    · simp [hc]
      split <;> rfl

/-- C4: an `In([])` filter value on a model field compiles to the
unsatisfiable `false()` clause, so the executed query returns zero rows
regardless of the other filters and of the table contents — distinguishable
from an absent filter, which returns the table unfiltered. -/
theorem C4_empty_in_unsatisfiable (model : Model) (table : List Row)
    (order_by : OrderBy) (filters : List (String × Val)) (field : String)
    (hmem : (field, Val.vIn []) ∈ filters)
    (hfield : model.hasField field = true) :
    Clause.falseC ∈ BaseRepository.filter_clauses model filters
    ∧ runQueryNoJoin table (BaseRepository.get_all model order_by [] [] [] none filters) = []
    ∧ runQueryNoJoin table (BaseRepository.get_all model order_by [] [] [] none []) = table := by
  have hfc := falseC_mem_filter_clauses model filters field hmem hfield
  refine ⟨hfc, ?_, ?_⟩
  · unfold runQueryNoJoin
    rw [List.filter_eq_nil_iff]
    intro r _
    rw [get_all_noJoin_whereClauses]
    simp [all_holds_eq_false_of_falseC r _ hfc]
  · unfold runQueryNoJoin
    rw [get_all_noJoin_whereClauses]
    simp [BaseRepository.filter_clauses]

/-- C4 witness: a two-field model, a nonempty table, and a filter set that
pairs an equality filter with `In([])` — the query returns zero rows while
the filterless query returns the whole table. -/
theorem C4_empty_in_unsatisfiable_witness :
    Clause.falseC ∈ BaseRepository.filter_clauses (Model.mk ["a", "b"])
        [("b", Val.scalar (Scalar.sint 5)), ("a", Val.vIn [])]
    ∧ runQueryNoJoin [[("a", Val.scalar (Scalar.sint 1)), ("b", Val.scalar (Scalar.sint 5))]]
        (BaseRepository.get_all (Model.mk ["a", "b"]) OrderBy.noneOb [] [] [] none
          [("b", Val.scalar (Scalar.sint 5)), ("a", Val.vIn [])]) = []
    ∧ runQueryNoJoin [[("a", Val.scalar (Scalar.sint 1)), ("b", Val.scalar (Scalar.sint 5))]]
        (BaseRepository.get_all (Model.mk ["a", "b"]) OrderBy.noneOb [] [] [] none [])
        = [[("a", Val.scalar (Scalar.sint 1)), ("b", Val.scalar (Scalar.sint 5))]] :=
  C4_empty_in_unsatisfiable (Model.mk ["a", "b"])
    [[("a", Val.scalar (Scalar.sint 1)), ("b", Val.scalar (Scalar.sint 5))]]
    OrderBy.noneOb [("b", Val.scalar (Scalar.sint 5)), ("a", Val.vIn [])] "a"
    (by decide) (by decide)

/-- On plain scalar filter values (no `In(...)`, no enum member) the
blocking and non-blocking filter compilations coincide. -/
lemma filter_clauses_agree (model : Model) (filters : List (String × Val))
    (h : (filters.all fun kv => kv.2.isPlainScalar) = true) :
    BaseRepository.filter_clauses model filters
      = AsyncBaseRepository.filter_clauses model filters := by
  induction filters with
  | nil => rfl
  | cons kv rest ih =>
    obtain ⟨f, v⟩ := kv
    simp only [List.all_cons, Bool.and_eq_true] at h
    obtain ⟨hv, hrest⟩ := h
    cases v with
    | scalar s =>
      simp only [BaseRepository.filter_clauses, AsyncBaseRepository.filter_clauses,
        ih hrest]
    | vIn items => simp [Val.isPlainScalar] at hv
    | vEnum n u => simp [Val.isPlainScalar] at hv

/-- When the empty string is not a model field, the two `_order_by` loops
produce the same order expressions. -/
lemma order_exprs_agree (model : Model) (l : List String)
    (h : model.hasField "" = false) :
    BaseRepository.order_exprs model l = AsyncBaseRepository.order_exprs model l := by
  induction l with
  | nil => rfl
  | cons f rest ih =>
    by_cases hf : f = ""
    · subst hf
      have hsw : ("".startsWith "-") = false := by decide
      simp only [BaseRepository.order_exprs, AsyncBaseRepository.order_exprs,
        if_pos rfl, hsw, Bool.false_eq_true, if_false, h, ih]
      simp
    · simp only [BaseRepository.order_exprs, AsyncBaseRepository.order_exprs,
        if_neg hf, ih]

/-- Normal form of the blocking `get_all` without joins, join filters,
extra select fields or column projection. -/
lemma get_all_noJoin_eq (model : Model) (order_by : OrderBy)
    (filters : List (String × Val)) :
    BaseRepository.get_all model order_by [] [] [] none filters
      = Query.mk [] none [] (BaseRepository.filter_clauses model filters)
          (BaseRepository.order_exprs model order_by.normalize) := by
  have h1 : BaseRepository.filter_query model (Query.mk [] none [] [] []) filters
      = Query.mk [] none [] (BaseRepository.filter_clauses model filters) [] := by
    unfold BaseRepository.filter_query
    by_cases hf : filters = []
    · subst hf
      simp [BaseRepository.filter_clauses]
    · rw [if_pos hf]
      by_cases hc : BaseRepository.filter_clauses model filters = []
      · rw [hc]
        simp
      · simp [hc]
  unfold BaseRepository.get_all
  simp only [List.foldl_nil, h1]
  by_cases he : BaseRepository.order_exprs model order_by.normalize = []
  · rw [he]
    simp
  · rw [if_pos he]
    simp

/-- Normal form of the non-blocking `get_all`. -/
lemma async_get_all_eq (model : Model) (order_by : OrderBy)
    (filters : List (String × Val)) :
    AsyncBaseRepository.get_all model order_by filters
      = Query.mk [] none [] (AsyncBaseRepository.filter_clauses model filters)
          (AsyncBaseRepository.order_exprs model order_by.normalize) := by
  unfold AsyncBaseRepository.get_all
  dsimp only
  by_cases hf : filters = []
  · subst hf
    simp [AsyncBaseRepository.filter_clauses]
  · rw [if_pos hf]
    by_cases hc : AsyncBaseRepository.filter_clauses model filters = []
    · rw [hc]
      simp
    · simp [hc]

/-- C1 amended: for identical inputs expressible in both variants — filter
values that are plain scalars (neither `In(...)` wrappers nor enum
members), any order specification (with the empty string not a model
field), and no joins, join filters, extra select fields or column
projection — the blocking and non-blocking `get_all` compose identical
queries, hence identical executed results, and `get_paginated` agrees
whenever no separate count query is passed.  The non-blocking `get_all`
accepts no joins/join_filters/select_fields/columns parameters, and it
treats an `In(...)` value as a plain equality operand rather than as set
membership, so `In` filters differ between the variants. -/
theorem C1_amended (model : Model) (order_by : OrderBy) (table : List Row)
    (filters : List (String × Val))
    (hscalar : (filters.all fun kv => kv.2.isPlainScalar) = true)
    (hempty : model.hasField "" = false) :
    BaseRepository.get_all model order_by [] [] [] none filters
      = AsyncBaseRepository.get_all model order_by filters
    ∧ runQueryNoJoin table (BaseRepository.get_all model order_by [] [] [] none filters)
      = runQueryNoJoin table (AsyncBaseRepository.get_all model order_by filters)
    ∧ (∀ (α : Type) (rows : List α) (limit page : Int),
        AsyncBaseRepository.get_paginated rows limit page
          = BaseRepository.get_paginated rows none limit page) := by
  have hfc := filter_clauses_agree model filters hscalar
  have hoe := order_exprs_agree model order_by.normalize hempty
  have hq : BaseRepository.get_all model order_by [] [] [] none filters
      = AsyncBaseRepository.get_all model order_by filters := by
    rw [get_all_noJoin_eq, async_get_all_eq, hfc, hoe]
  exact ⟨hq, by rw [hq], fun α rows limit page => rfl⟩

/-- C1 amended witness: a concrete scalar filter set (including a skipped
None value) and a descending order, on which the two variants compose the
same query. -/
theorem C1_amended_witness :
    BaseRepository.get_all (Model.mk ["x", "y"]) (OrderBy.single "-y") [] [] [] none
        [("x", Val.scalar (Scalar.sint 1)), ("y", Val.vnull)]
      = AsyncBaseRepository.get_all (Model.mk ["x", "y"]) (OrderBy.single "-y")
        [("x", Val.scalar (Scalar.sint 1)), ("y", Val.vnull)] :=
  (C1_amended (Model.mk ["x", "y"]) (OrderBy.single "-y") []
    [("x", Val.scalar (Scalar.sint 1)), ("y", Val.vnull)] (by decide) (by decide)).1

/-- C1 counterexample: on the same input — the filter `x = In([1])` — the
blocking variant compiles a membership clause and the executed query
returns the matching row, while the non-blocking variant compares the
column against the `In` object itself and returns no rows: the two
variants do not produce identical results for identical inputs. -/
theorem C1_counterexample :
    runQueryNoJoin [[("x", Val.scalar (Scalar.sint 1))]]
        (BaseRepository.get_all (Model.mk ["x"]) OrderBy.noneOb [] [] [] none
          [("x", Val.vIn [Scalar.sint 1])])
      = [[("x", Val.scalar (Scalar.sint 1))]]
    ∧ runQueryNoJoin [[("x", Val.scalar (Scalar.sint 1))]]
        (AsyncBaseRepository.get_all (Model.mk ["x"]) OrderBy.noneOb
          [("x", Val.vIn [Scalar.sint 1])])
      = [] := by
  decide

/-- C10: on an enum-member filter value with a non-null underlying value,
the non-blocking `get_all` builds the comparison against the member's
`.value`, while the blocking `_filter_clauses` compares against the member
itself; a row storing the underlying value satisfies the non-blocking
clause and not the blocking one. -/
theorem C10_enum_unwrap (model : Model) (field ename : String) (u : Scalar)
    (hfield : model.hasField field = true) (hu : u ≠ Scalar.snull) :
    AsyncBaseRepository.filter_clauses model [(field, Val.vEnum ename u)]
        = [Clause.eqC field (Val.scalar u)]
    ∧ BaseRepository.filter_clauses model [(field, Val.vEnum ename u)]
        = [Clause.eqC field (Val.vEnum ename u)]
    ∧ ∀ r : Row, Row.getField r field = Val.scalar u →
        Clause.holds r (Clause.eqC field (Val.scalar u)) = true
        ∧ Clause.holds r (Clause.eqC field (Val.vEnum ename u)) = false := by
  refine ⟨?_, ?_, ?_⟩
  · have hne : Val.scalar u ≠ Val.vnull := by
      intro hc
      exact hu (Val.scalar.injEq .. ▸ hc)
    simp [AsyncBaseRepository.filter_clauses, hfield, hne]
  · have hne : Val.vEnum ename u ≠ Val.vnull := by
      intro hc
      cases hc
    simp [BaseRepository.filter_clauses, hfield, hne]
  · intro r hr
    constructor
    · simp [Clause.holds, hr]
    · simp [Clause.holds, hr]

/-- C10 witness: a status field filtered by an enum member whose `.value`
is the stored string. -/
theorem C10_enum_unwrap_witness :
    AsyncBaseRepository.filter_clauses (Model.mk ["status"])
        [("status", Val.vEnum "State.ACTIVE" (Scalar.sstr "active"))]
      = [Clause.eqC "status" (Val.scalar (Scalar.sstr "active"))]
    ∧ Clause.holds [("status", Val.scalar (Scalar.sstr "active"))]
        (Clause.eqC "status" (Val.scalar (Scalar.sstr "active"))) = true
    ∧ Clause.holds [("status", Val.scalar (Scalar.sstr "active"))]
        (Clause.eqC "status" (Val.vEnum "State.ACTIVE" (Scalar.sstr "active"))) = false := by
  have h := C10_enum_unwrap (Model.mk ["status"]) "status" "State.ACTIVE"
    (Scalar.sstr "active") (by decide) (by decide)
  have hr := h.2.2 [("status", Val.scalar (Scalar.sstr "active"))] (by decide)
  exact ⟨h.1, hr.1, hr.2⟩

/-- After overwriting an existing attribute in place, reading it back gives
the new value. -/
lemma getAttr_map_set (k : String) (v : Val) :
    ∀ (i : Inst), Inst.hasAttr i k = true →
      Inst.getAttr (i.map fun kv => if kv.1 = k then (k, v) else kv) k = v := by
  intro i
  induction i with
  | nil => intro h; simp [Inst.hasAttr] at h
  | cons kv t ih =>
    intro h
    by_cases hk : kv.1 = k
    · simp [Inst.getAttr, List.find?, hk]
    · have ht : Inst.hasAttr t k = true := by
        simp [Inst.hasAttr] at h ⊢
        rcases h with h | h
        · exact absurd h hk
        · exact h
      have := ih ht
      simp [Inst.getAttr, List.find?, hk] at this ⊢
      exact this

/-- Overwriting attribute `k` does not change the reading of an attribute
`q ≠ k` (map branch). -/
lemma find?_q_map_set (k q : String) (v : Val) (h : q ≠ k) :
    ∀ (i : Inst),
      (i.map fun kv => if kv.1 = k then (k, v) else kv).find? (fun kv => kv.1 = q)
        = i.find? (fun kv => kv.1 = q) := by
  intro i
  induction i with
  | nil => rfl
  | cons kv t ih =>
    by_cases hk : kv.1 = k
    · have hkq : ¬(k = q) := fun hc => h hc.symm
      simp [List.find?, hk, hkq, ih]
    · by_cases hq : kv.1 = q
      · have hqk : ¬(q = k) := h
        simp [List.find?, hk, hq, hqk]
      · simp [List.find?, hk, hq, ih]

/-- Appending a fresh attribute `k` does not change the reading of an
attribute `q ≠ k` (append branch). -/
lemma find?_q_append_set (k q : String) (v : Val) (h : q ≠ k) :
    ∀ (i : Inst),
      (i ++ [(k, v)]).find? (fun kv => kv.1 = q) = i.find? (fun kv => kv.1 = q) := by
  intro i
  induction i with
  | nil =>
    have hkq : ¬(k = q) := fun hc => h hc.symm
    simp [List.find?, hkq]
  | cons kv t ih =>
    by_cases hq : kv.1 = q
    · simp [List.find?, hq]
    · simp [List.find?, hq, ih]

/-- `setattr` on one attribute leaves the others unchanged. -/
lemma getAttr_setAttr_ne (i : Inst) (k q : String) (v : Val) (h : q ≠ k) :
    (i.setAttr k v).getAttr q = i.getAttr q := by
  unfold Inst.setAttr
  split
  · unfold Inst.getAttr
    rw [find?_q_map_set k q v h]
  · unfold Inst.getAttr
    rw [find?_q_append_set k q v h]

/-- Setting an attribute (overwriting or creating) makes it read back. -/
lemma getAttr_setAttr (i : Inst) (k : String) (v : Val) :
    (i.setAttr k v).getAttr k = v := by
  unfold Inst.setAttr
  split
  · exact getAttr_map_set k v i (by assumption)
  · unfold Inst.getAttr
    induction i with
    | nil => simp [List.find?]
    | cons kv t ih =>
      rename_i hna
      have hkv : ¬(kv.1 == k) = true := by
        intro hc
        exact hna (by simp [Inst.hasAttr, List.any_cons, hc])
      have hkv' : ¬(kv.1 = k) := fun hc => hkv (by simp [hc])
      have hna' : ¬Inst.hasAttr t k = true := by
        intro hc
        exact hna (by simp [Inst.hasAttr, List.any_cons]; right; simpa [Inst.hasAttr] using hc)
      have hfalse : Inst.hasAttr t k = false := by
        cases hb : Inst.hasAttr t k with
        | false => rfl
        | true => exact absurd hb hna'
      simp [List.find?, hkv'] at ih ⊢
      exact ih hfalse

/-- Applying keyword pairs none of which touch `key` preserves the reading
of `key`. -/
lemma getAttr_foldl_setAttr (key : String) (kwargs : List (String × Val)) :
    ∀ (i : Inst), (kwargs.all fun kv => kv.1 ≠ key) = true →
      (kwargs.foldl (fun acc kv => acc.setAttr kv.1 kv.2) i).getAttr key
        = i.getAttr key := by
  induction kwargs with
  | nil => intro i _; rfl
  | cons kv t ih =>
    intro i h
    simp only [List.all_cons, Bool.and_eq_true] at h
    obtain ⟨h1, h2⟩ := h
    rw [List.foldl_cons, ih _ h2, getAttr_setAttr_ne]
    exact fun hc => (of_decide_eq_true h1) hc.symm

/-- C2 counterexample: with the clock at 10, prior `updated_at = 0` and a
caller-passed `updated_at = 0` among the fields, both variants leave
`updated_at = 0` after the call — not the current time taken at call time,
and not strictly greater than the prior value. -/
theorem C2_counterexample :
    (BaseRepository.update 10 [("updated_at", Val.scalar (Scalar.sint 0))]
        [("updated_at", Val.scalar (Scalar.sint 0))]).getAttr "updated_at"
      = Val.scalar (Scalar.sint 0)
    ∧ (AsyncBaseRepository.update 10 [("updated_at", Val.scalar (Scalar.sint 0))]
        [("updated_at", Val.scalar (Scalar.sint 0))]).getAttr "updated_at"
      = Val.scalar (Scalar.sint 0)
    ∧ (BaseRepository.update 10 [("updated_at", Val.scalar (Scalar.sint 0))]
        [("updated_at", Val.scalar (Scalar.sint 0))]).getAttr "updated_at"
      ≠ Val.scalar (Scalar.sint 10) := by
  decide

/-- C2 amended: `update` stamps `updated_at` with the call-time clock
before applying the caller's field/value pairs; hence whenever the caller
does not pass `updated_at` among the fields, the value after the call is
the call-time UTC time in both variants, and — the clock having advanced
past the prior value — strictly greater than the prior value.  A
caller-passed `updated_at` value overwrites the stamp. -/
theorem C2_amended (now : Int) (inst : Inst) (kwargs : List (String × Val))
    (hhas : inst.hasAttr "updated_at" = true)
    (hnotin : (kwargs.all fun kv => kv.1 ≠ "updated_at") = true) :
    (BaseRepository.update now inst kwargs).getAttr "updated_at"
        = Val.scalar (Scalar.sint now)
    ∧ (AsyncBaseRepository.update now inst kwargs).getAttr "updated_at"
        = Val.scalar (Scalar.sint now)
    ∧ ∀ prior : Int, inst.getAttr "updated_at" = Val.scalar (Scalar.sint prior) →
        prior < now →
        ∃ t : Int, (BaseRepository.update now inst kwargs).getAttr "updated_at"
            = Val.scalar (Scalar.sint t) ∧ prior < t := by
  have hmain : (BaseRepository.update now inst kwargs).getAttr "updated_at"
      = Val.scalar (Scalar.sint now) := by
    unfold BaseRepository.update
    dsimp only
    rw [if_pos hhas, getAttr_foldl_setAttr _ _ _ hnotin, getAttr_setAttr]
  have hasync : (AsyncBaseRepository.update now inst kwargs).getAttr "updated_at"
      = Val.scalar (Scalar.sint now) := by
    unfold AsyncBaseRepository.update
    dsimp only
    rw [if_pos hhas, getAttr_foldl_setAttr _ _ _ hnotin, getAttr_setAttr]
  exact ⟨hmain, hasync, fun prior _ hlt => ⟨now, hmain, hlt⟩⟩

/-- C2 amended witness: updating only `name` with the clock at 5 stamps
`updated_at = 5`, strictly above the prior value 0. -/
theorem C2_amended_witness :
    (BaseRepository.update 5
        [("updated_at", Val.scalar (Scalar.sint 0)), ("name", Val.scalar (Scalar.sstr "a"))]
        [("name", Val.scalar (Scalar.sstr "x"))]).getAttr "updated_at"
      = Val.scalar (Scalar.sint 5)
    ∧ ∃ t : Int,
        (BaseRepository.update 5
          [("updated_at", Val.scalar (Scalar.sint 0)), ("name", Val.scalar (Scalar.sstr "a"))]
          [("name", Val.scalar (Scalar.sstr "x"))]).getAttr "updated_at"
          = Val.scalar (Scalar.sint t) ∧ 0 < t := by
  have h := C2_amended 5
    [("updated_at", Val.scalar (Scalar.sint 0)), ("name", Val.scalar (Scalar.sstr "a"))]
    [("name", Val.scalar (Scalar.sstr "x"))] (by decide) (by decide)
  exact ⟨h.1, h.2.2 0 (by decide) (by decide)⟩

/-- The refresh loop succeeds exactly when no refresh raises. -/
lemma refreshAll_ok_iff (l : List (Option Nat)) :
    (AsyncBaseRepository.refreshAll l).1 = Except.ok () ↔ firstRefreshExc l = none := by
  induction l with
  | nil => simp [AsyncBaseRepository.refreshAll, firstRefreshExc]
  | cons o rest ih =>
    cases o with
    | none => simpa [AsyncBaseRepository.refreshAll, firstRefreshExc] using ih
    | some e => simp [AsyncBaseRepository.refreshAll, firstRefreshExc]

/-- A failing refresh loop re-raises its first exception. -/
lemma refreshAll_err (l : List (Option Nat)) (e : Nat) :
    (AsyncBaseRepository.refreshAll l).1 = Except.error e → firstRefreshExc l = some e := by
  induction l with
  | nil => simp [AsyncBaseRepository.refreshAll]
  | cons o rest ih =>
    cases o with
    | none => simpa [AsyncBaseRepository.refreshAll, firstRefreshExc] using ih
    | some a => simp [AsyncBaseRepository.refreshAll, firstRefreshExc]

/-- A fully successful refresh loop performs one refresh per instance. -/
lemma refreshAll_trace_ok (l : List (Option Nat)) (h : firstRefreshExc l = none) :
    (AsyncBaseRepository.refreshAll l).2 = List.replicate l.length SOp.refreshOp := by
  induction l with
  | nil => rfl
  | cons o rest ih =>
    cases o with
    | none =>
      rw [firstRefreshExc] at h
      simp [AsyncBaseRepository.refreshAll, List.replicate, ih h]
    | some a => simp [firstRefreshExc] at h

/-- The refresh loop performs only refresh operations. -/
lemma refreshAll_trace_mem (l : List (Option Nat)) :
    ∀ x ∈ (AsyncBaseRepository.refreshAll l).2, x = SOp.refreshOp := by
  induction l with
  | nil => intro x hx; cases hx
  | cons o rest ih =>
    cases o with
    | none =>
      intro x hx
      rcases List.mem_cons.1 hx with h | h
      · exact h
      · exact ih x h
    | some a => intro x hx; cases hx

/-- C8: the write paths are transactional.  `_add` — used by `create` and
`update` in both variants — and `bulk_create` succeed exactly when every
store step succeeds; on success the performed operations are the add (or
`add_all`), a single commit, and a refresh of each affected instance, with
no rollback; on any store failure the first exception is re-raised
unchanged and the last performed session operation is the rollback.  The
batch of `bulk_create` is committed by exactly one commit operation,
performed precisely when `add_all` and `commit` succeed, so the batch
commits or rolls back as a whole. -/
theorem C8_transactional_writes (b : SessionBehavior) (bb : BulkBehavior) :
    ((BaseRepository.addRun b).1 = Except.ok ()
        ↔ b.addExc = none ∧ b.commitExc = none ∧ b.refreshExc = none)
    ∧ ((BaseRepository.addRun b).1 = Except.ok () →
        (BaseRepository.addRun b).2 = [SOp.addOp, SOp.commitOp, SOp.refreshOp])
    ∧ (∀ e, (BaseRepository.addRun b).1 = Except.error e →
        b.firstExc = some e
        ∧ (BaseRepository.addRun b).2.getLast? = some SOp.rollbackOp)
    ∧ ((AsyncBaseRepository.bulk_create bb).1 = Except.ok ()
        ↔ bb.addAllExc = none ∧ bb.commitExc = none
          ∧ firstRefreshExc bb.refreshExcs = none)
    ∧ ((AsyncBaseRepository.bulk_create bb).1 = Except.ok () →
        (AsyncBaseRepository.bulk_create bb).2
          = SOp.addAllOp :: SOp.commitOp
              :: List.replicate bb.refreshExcs.length SOp.refreshOp)
    ∧ (∀ e, (AsyncBaseRepository.bulk_create bb).1 = Except.error e →
        bb.firstExc = some e
        ∧ (AsyncBaseRepository.bulk_create bb).2.getLast? = some SOp.rollbackOp)
    ∧ ((AsyncBaseRepository.bulk_create bb).2.count SOp.commitOp
        = if bb.addAllExc = none ∧ bb.commitExc = none then 1 else 0) := by
  obtain ⟨ae, ce, re⟩ := b
  obtain ⟨bae, bce, brs⟩ := bb
  refine ⟨?_, ?_, ?_, ?_, ?_, ?_, ?_⟩
  · cases ae <;> cases ce <;> cases re <;>
      simp [BaseRepository.addRun]
  · cases ae <;> cases ce <;> cases re <;>
      simp [BaseRepository.addRun]
  · cases ae <;> cases ce <;> cases re <;>
      simp [BaseRepository.addRun, SessionBehavior.firstExc]
  · cases bae with
    | some a => simp [AsyncBaseRepository.bulk_create]
    | none =>
      cases bce with
      | some a => simp [AsyncBaseRepository.bulk_create]
      | none =>
        cases hr : (AsyncBaseRepository.refreshAll brs).1 with
        | error e =>
          have h1 : firstRefreshExc brs = some e := refreshAll_err brs e hr
          simp [AsyncBaseRepository.bulk_create, hr, h1]
        | ok u =>
          cases u
          have h1 : firstRefreshExc brs = none := (refreshAll_ok_iff brs).1 hr
          simp [AsyncBaseRepository.bulk_create, hr, h1]
  · cases bae with
    | some a => simp [AsyncBaseRepository.bulk_create]
    | none =>
      cases bce with
      | some a => simp [AsyncBaseRepository.bulk_create]
      | none =>
        cases hr : (AsyncBaseRepository.refreshAll brs).1 with
        | error e => simp [AsyncBaseRepository.bulk_create, hr]
        | ok u =>
          cases u
          intro _
          have h1 : firstRefreshExc brs = none := (refreshAll_ok_iff brs).1 hr
          simp [AsyncBaseRepository.bulk_create, hr,
            refreshAll_trace_ok brs h1]
  · cases bae with
    | some a =>
      simp [AsyncBaseRepository.bulk_create, BulkBehavior.firstExc]
    | none =>
      cases bce with
      | some a =>
        simp [AsyncBaseRepository.bulk_create, BulkBehavior.firstExc]
      | none =>
        cases hr : (AsyncBaseRepository.refreshAll brs).1 with
        | ok u => cases u; simp [AsyncBaseRepository.bulk_create, hr]
        | error e0 =>
          intro e he
          have h1 : firstRefreshExc brs = some e0 := refreshAll_err brs e0 hr
          have he0 : e0 = e := by
            have : (AsyncBaseRepository.bulk_create
                (BulkBehavior.mk none none brs)).1 = Except.error e0 := by
              simp [AsyncBaseRepository.bulk_create, hr]
            rw [this] at he
            exact (Except.error.injEq .. ▸ he)
          subst he0
          constructor
          · simp [BulkBehavior.firstExc, h1]
          · have ht : (AsyncBaseRepository.bulk_create
                (BulkBehavior.mk none none brs)).2
                = (SOp.addAllOp :: SOp.commitOp
                    :: (AsyncBaseRepository.refreshAll brs).2) ++ [SOp.rollbackOp] := by
              simp [AsyncBaseRepository.bulk_create, hr]
            rw [ht, List.getLast?_concat]
  · cases bae with
    | some a => simp [AsyncBaseRepository.bulk_create]
    | none =>
      cases bce with
      | some a => simp [AsyncBaseRepository.bulk_create]
      | none =>
        have hmem : SOp.commitOp ∉ (AsyncBaseRepository.refreshAll brs).2 := by
          intro hc
          cases refreshAll_trace_mem brs SOp.commitOp hc
        have hz : ((AsyncBaseRepository.refreshAll brs).2).count SOp.commitOp = 0 :=
          List.count_eq_zero.2 hmem
        cases hr : (AsyncBaseRepository.refreshAll brs).1 with
        | ok u =>
          cases u
          simp [AsyncBaseRepository.bulk_create, hr, List.count_cons, hz]
        | error e0 =>
          simp [AsyncBaseRepository.bulk_create, hr, List.count_cons,
            List.count_append, hz]

/-- C8 witness: a failing commit in `_add` re-raises exception 7 after a
final rollback; a failing second refresh in `bulk_create` re-raises
exception 4 after a final rollback; a fully successful two-instance
`bulk_create` performs add_all, one commit and two refreshes. -/
theorem C8_transactional_writes_witness :
    (SessionBehavior.mk none (some 7) none).firstExc = some 7
    ∧ (BaseRepository.addRun (SessionBehavior.mk none (some 7) none)).2.getLast?
        = some SOp.rollbackOp
    ∧ (BulkBehavior.mk none none [none, some 4]).firstExc = some 4
    ∧ (AsyncBaseRepository.bulk_create
        (BulkBehavior.mk none none [none, some 4])).2.getLast? = some SOp.rollbackOp
    ∧ (AsyncBaseRepository.bulk_create (BulkBehavior.mk none none [none, none])).2
        = SOp.addAllOp :: SOp.commitOp :: List.replicate 2 SOp.refreshOp := by
  have h := C8_transactional_writes (SessionBehavior.mk none (some 7) none)
    (BulkBehavior.mk none none [none, some 4])
  have h2 := C8_transactional_writes (SessionBehavior.mk none none none)
    (BulkBehavior.mk none none [none, none])
  exact ⟨(h.2.2.1 7 rfl).1, (h.2.2.1 7 rfl).2,
    (h.2.2.2.2.2.1 4 rfl).1, (h.2.2.2.2.2.1 4 rfl).2,
    h2.2.2.2.2.1 rfl⟩

/-- C3 counterexample: a transport write failure followed by a failing
`connect()` inside `_handle_stream_error` escapes `send_data` — the
reconnect exception is raised to the caller, so `send_data` does not
swallow every failure of the reconnect path. -/
theorem C3_counterexample :
    (BaseStreamer.send_data (StreamEnv.mk true false none (some ExcKind.aioRpcError)
        none (some ExcKind.aioRpcError) none)).1
      = Except.error ExcKind.aioRpcError := by
  rfl

/-- `send_data` never reads the outcome of `done_writing` (it is swallowed
either way), so its behaviour is independent of `doneWritingExc`. -/
lemma send_data_dw_irrel (p d : Bool) (c1 w1 dw c2 w2 : Option ExcKind) :
    BaseStreamer.send_data (StreamEnv.mk p d c1 w1 dw c2 w2)
      = BaseStreamer.send_data (StreamEnv.mk p d c1 w1 none c2 w2) := by
  cases p <;> cases d <;>
    rcases c1 with _ | e1 <;> (try cases e1) <;>
    rcases w1 with _ | e2 <;> (try cases e2) <;>
    rcases c2 with _ | e3 <;> (try cases e3) <;>
    rcases w2 with _ | e4 <;> (try cases e4) <;>
    rfl

/-- Neither does the first-phase exception depend on `doneWritingExc`. -/
lemma firstPhaseExc_dw_irrel (p d : Bool) (c1 w1 dw c2 w2 : Option ExcKind) :
    BaseStreamer.firstPhaseExc (StreamEnv.mk p d c1 w1 dw c2 w2)
      = BaseStreamer.firstPhaseExc (StreamEnv.mk p d c1 w1 none c2 w2) := by
  cases p <;> cases d <;> rcases c1 with _ | e1 <;> rcases w1 with _ | e2 <;> rfl

set_option maxHeartbeats 4000000 in
/-- C3 amended: `send_data` performs at most one reconnect-and-retry cycle
(at most two write attempts and at most one backoff sleep) and a failure
of the retried write is always logged and swallowed; but an exception can
still reach the caller in exactly two ways: a first-phase exception that
is neither `AioRpcError` nor `InvalidStateError`, or any exception raised
by the `connect()` of the reconnect sequence.  When the first phase fails
with a caught transport error and the reconnect succeeds, `send_data`
returns normally with exactly one backoff and a final retried write,
regardless of whether that retry fails. -/
theorem C3_amended (env : StreamEnv) :
    ((BaseStreamer.send_data env).2.count StreamOp.writeAttempt ≤ 2)
    ∧ ((BaseStreamer.send_data env).2.count StreamOp.sleepBackoff ≤ 1)
    ∧ (∀ e, (BaseStreamer.send_data env).1 = Except.error e →
        e = ExcKind.otherError ∨ env.connect2Exc = some e)
    ∧ (∀ e, BaseStreamer.firstPhaseExc env = some e →
        (e = ExcKind.aioRpcError ∨ e = ExcKind.invalidStateError) →
        env.connect2Exc = none →
        (BaseStreamer.send_data env).1 = Except.ok ()
        ∧ (BaseStreamer.send_data env).2.count StreamOp.sleepBackoff = 1
        ∧ (BaseStreamer.send_data env).2.getLast? = some StreamOp.writeAttempt) := by
  obtain ⟨p, d, c1, w1, dw, c2, w2⟩ := env
  simp only [send_data_dw_irrel, firstPhaseExc_dw_irrel]
  cases p <;> cases d <;>
    rcases c1 with _ | e1 <;> (try cases e1) <;>
    rcases w1 with _ | e2 <;> (try cases e2) <;>
    rcases c2 with _ | e3 <;> (try cases e3) <;>
    rcases w2 with _ | e4 <;> (try cases e4) <;>
    decide

/-- C3 amended witness: first write fails with a transport error, the
reconnect succeeds, and the retried write fails with a non-transport
error: the retry failure is swallowed, one backoff was taken and the last
transport operation is the retried write attempt. -/
theorem C3_amended_witness :
    (BaseStreamer.send_data (StreamEnv.mk true false none (some ExcKind.aioRpcError)
        none none (some ExcKind.otherError))).1 = Except.ok ()
    ∧ (BaseStreamer.send_data (StreamEnv.mk true false none (some ExcKind.aioRpcError)
        none none (some ExcKind.otherError))).2.count StreamOp.sleepBackoff = 1
    ∧ (BaseStreamer.send_data (StreamEnv.mk true false none (some ExcKind.aioRpcError)
        none none (some ExcKind.otherError))).2.getLast? = some StreamOp.writeAttempt :=
  (C3_amended (StreamEnv.mk true false none (some ExcKind.aioRpcError)
      none none (some ExcKind.otherError))).2.2.2 ExcKind.aioRpcError rfl
    (Or.inl rfl) rfl

/-- C9 counterexample: two `connect()` calls serialized by the connect
lock, starting from a freshly initialized streamer, construct two channels
in total — not exactly one: the second caller does not adopt the result of
the in-progress attempt but rebuilds channel, stub and stream itself. -/
theorem C9_counterexample :
    (BaseStreamer.connect (BaseStreamer.connect StreamerState.init)).constructedChannels
      = 2 := by
  rfl

/-- C9 amended: the connect lock makes two concurrent `connect()` callers
run the connect body twice in sequence; each run constructs a fresh
channel/stub/stream (two constructions in total), the channel built by the
first run is closed by the second, and afterwards both callers observe the
channel and stream built by the last run. -/
theorem C9_amended (s : StreamerState) :
    (BaseStreamer.connect (BaseStreamer.connect s)).constructedChannels
        = s.constructedChannels + 2
    ∧ (BaseStreamer.connect (BaseStreamer.connect s)).channel = some (s.nextFresh + 1)
    ∧ (BaseStreamer.connect (BaseStreamer.connect s)).stub = some (s.nextFresh + 1)
    ∧ (BaseStreamer.connect (BaseStreamer.connect s)).stream = some (s.nextFresh + 1)
    ∧ s.nextFresh ∈ (BaseStreamer.connect (BaseStreamer.connect s)).closedChannels := by
  obtain ⟨ch, st, sm, nf, cc, cl⟩ := s
  cases ch <;> exact ⟨rfl, rfl, rfl, rfl, by simp [BaseStreamer.connect]⟩
